import Mathlib

/-!
Shallow embedding of `wtransport-proto/src/datagram.rs`, the HTTP3 datagram
codec of the wtransport repository.

Byte buffers are modelled as `List Nat` with each byte below 256.  The
collaborators from `crate::bytes` and `crate::ids` (the QUIC variable-length
integer reader/writer, the buffer cursors and the QStream-ID validation rule)
are not part of the source tree; they are modelled from the specification's
§6 "EXTERNAL INTERFACES" description and marked as such below.  The
stream-identifier acceptance rule is deliberately kept abstract: every
definition that needs it takes an arbitrary predicate `valid : Nat → Bool`,
exactly as the spec treats it ("this codec does not define the acceptance
rule, only consumes its result").
-/

namespace Wtransport

/-- Modelled from the spec: the minimal QUIC variable-length-integer encoding
length of a value (`VarInt::size` from the missing `crate::ids`).  QUIC
varints occupy 1, 2, 4 or 8 bytes with a 2-bit length prefix, so the
value thresholds are 2^6, 2^14 and 2^30. -/
def VarInt.size (v : Nat) : Nat :=
  if v < 64 then 1
  else if v < 16384 then 2
  else if v < 1073741824 then 4
  else 8

/-- Modelled from the spec: the minimal QUIC variable-length-integer encoding
of a value, big-endian with the 2-bit length prefix (00/01/10/11) in the two
top bits of the first byte.  The added constants are the prefix bits:
`16384 = 2^14` (prefix 01 on 2 bytes), `2147483648 = 2^31` (prefix 10 on
4 bytes), `13835058055282163712 = 3 * 2^62` (prefix 11 on 8 bytes). -/
def VarInt.encode (v : Nat) : List Nat :=
  if v < 64 then [v % 256]
  else if v < 16384 then
    [(16384 + v) / 256 % 256, (16384 + v) % 256]
  else if v < 1073741824 then
    [(2147483648 + v) / 16777216 % 256, (2147483648 + v) / 65536 % 256,
     (2147483648 + v) / 256 % 256, (2147483648 + v) % 256]
  else
    [(13835058055282163712 + v) / 72057594037927936 % 256,
     (13835058055282163712 + v) / 281474976710656 % 256,
     (13835058055282163712 + v) / 1099511627776 % 256,
     (13835058055282163712 + v) / 4294967296 % 256,
     (13835058055282163712 + v) / 16777216 % 256,
     (13835058055282163712 + v) / 65536 % 256,
     (13835058055282163712 + v) / 256 % 256,
     (13835058055282163712 + v) % 256]

namespace BufferReader

/-- Modelled from the spec: `BufferReader::get_varint` from the missing
`crate::bytes` — "a sequential reader over an immutable byte slice exposing
read one varint (returns nothing on insufficient bytes)".  The first byte's
two top bits (`b0 / 64`) declare the total length 1, 2, 4 or 8; the reader
consumes exactly that many bytes and returns the decoded value together
with the remaining bytes, or `none` when fewer bytes than declared are
present. -/
def get_varint (buf : List Nat) : Option (Nat × List Nat) :=
  match buf with
  | [] => none
  | b0 :: rest =>
    if b0 / 64 % 4 = 0 then some (b0 % 64, rest)
    else if b0 / 64 % 4 = 1 then
      match rest with
      | b1 :: r => some (b0 % 64 * 256 + b1, r)
      | _ => none
    else if b0 / 64 % 4 = 2 then
      match rest with
      | b1 :: b2 :: b3 :: r =>
        some (b0 % 64 * 16777216 + b1 * 65536 + b2 * 256 + b3, r)
      | _ => none
    else
      match rest with
      | b1 :: b2 :: b3 :: b4 :: b5 :: b6 :: b7 :: r =>
        some (b0 % 64 * 72057594037927936 + b1 * 281474976710656 +
              b2 * 1099511627776 + b3 * 4294967296 + b4 * 16777216 +
              b5 * 65536 + b6 * 256 + b7, r)
      | _ => none

end BufferReader

/-- Error type of the buffer-writer collaborators (`crate::bytes::EndOfBuffer`). -/
structure EndOfBuffer : Type where

/-- Modelled from the spec: `BufferWriter` from the missing `crate::bytes` —
"a sequential writer over a mutable byte slice"; the mutable slice is the
`buffer` field and the cursor position is `offset`. -/
structure BufferWriter where
  buffer : List Nat
  offset : Nat
deriving DecidableEq

namespace BufferWriter

/-- Modelled from the spec: `BufferWriter::new` places the cursor at the
start of the destination slice. -/
def new (buffer : List Nat) : BufferWriter := ⟨buffer, 0⟩

/-- Remaining capacity of the writer. -/
def capacity (w : BufferWriter) : Nat := w.buffer.length - w.offset

/-- Modelled from the spec: `BufferWriter::put_bytes` — "write raw bytes,
which may fail if capacity is exhausted".  On success the bytes are written
at the cursor and the cursor advances past them; on failure nothing is
written. -/
def put_bytes (w : BufferWriter) (bytes : List Nat) :
    Except EndOfBuffer BufferWriter :=
  if w.capacity < bytes.length then .error ⟨⟩
  else .ok ⟨w.buffer.take w.offset ++ bytes ++
            w.buffer.drop (w.offset + bytes.length),
            w.offset + bytes.length⟩

/-- Modelled from the spec: `BufferWriter::put_varint` — "write one varint";
it writes the minimal encoding of the value ("encode must always choose the
minimal encoding length for a given integer value"). -/
def put_varint (w : BufferWriter) (v : Nat) : Except EndOfBuffer BufferWriter :=
  w.put_bytes (VarInt.encode v)

end BufferWriter

/-- Modelled from the spec: `QStreamId::try_from_varint` from the missing
`crate::ids` — "an external predicate mapping a raw integer to either a
valid typed identifier or a rejection".  The acceptance rule `valid` is an
arbitrary parameter; the typed identifier is modelled by the accepted raw
integer itself. -/
def QStreamId.try_from_varint (valid : Nat → Bool) (v : Nat) : Option Nat :=
  if valid v then some v else none

/-- Modelled from the spec: `QStreamId::into_varint` returns the underlying
integer value of the identifier. -/
def QStreamId.into_varint (q : Nat) : Nat := q

/-- `DatagramReadError` from `datagram.rs`: the two (and only two) decode
error kinds. -/
inductive DatagramReadError : Type where
  /-- Error when QUIC datagram is too short. -/
  | TooShort : DatagramReadError
  /-- Error for invalid QStream ID. -/
  | InvalidQStreamId : DatagramReadError
deriving DecidableEq

/-- `Datagram` from `datagram.rs`: a QStream identifier together with a
payload view. -/
structure Datagram where
  qstream_id : Nat
  payload : List Nat
deriving DecidableEq

namespace Datagram

/-- `Datagram::new`: pure value construction. -/
def new (qstream_id : Nat) (payload : List Nat) : Datagram :=
  ⟨qstream_id, payload⟩

/-- `Datagram::read`: read one varint from the front (`TooShort` when the
reader reports insufficient bytes), validate it as a QStream ID
(`InvalidQStreamId` when rejected), and take every remaining byte as the
payload. -/
def read (valid : Nat → Bool) (quic_datagram : List Nat) :
    Except DatagramReadError Datagram :=
  match BufferReader.get_varint quic_datagram with
  | none => .error .TooShort
  | some (varint, remaining) =>
    match QStreamId.try_from_varint valid varint with
    | none => .error .InvalidQStreamId
    | some qstream_id => .ok ⟨qstream_id, remaining⟩

/-- `Datagram::write_size`: varint size of the identifier plus payload
length. -/
def write_size (d : Datagram) : Nat :=
  VarInt.size (QStreamId.into_varint d.qstream_id) + d.payload.length

/-- Result of `Datagram::write` on a destination buffer.  `panicked` models
the two `expect` branches of the source; `err` is the `Err(EndOfBuffer)`
return, carrying the (untouched) destination contents; `ok` carries the
destination contents after a successful write. -/
inductive WriteResult : Type where
  | panicked : WriteResult
  | err : List Nat → WriteResult
  | ok : List Nat → WriteResult
deriving DecidableEq

/-- `Datagram::write`: check capacity against `write_size` first and return
`Err(EndOfBuffer)` without touching the buffer when it is insufficient;
otherwise put the identifier varint and then the payload bytes, each
through the writer collaborator whose failure would be a panic (`expect`). -/
def write (d : Datagram) (buffer : List Nat) : WriteResult :=
  if buffer.length < d.write_size then .err buffer
  else
    match (BufferWriter.new buffer).put_varint
            (QStreamId.into_varint d.qstream_id) with
    | .error _ => .panicked
    | .ok w1 =>
      match w1.put_bytes d.payload with
      | .error _ => .panicked
      | .ok w2 => .ok w2.buffer

end Datagram

/-! ### Lemmas about the varint collaborators -/

theorem VarInt.size_pos (v : Nat) : 1 ≤ VarInt.size v := by
  simp only [VarInt.size]
  split_ifs <;> omega

theorem VarInt.size_le_eight (v : Nat) : VarInt.size v ≤ 8 := by
  simp only [VarInt.size]
  split_ifs <;> omega

theorem VarInt.encode_length (v : Nat) :
    (VarInt.encode v).length = VarInt.size v := by
  simp only [VarInt.encode, VarInt.size]
  split_ifs <;> rfl

theorem VarInt.encode_bytes_lt (v : Nat) : ∀ b ∈ VarInt.encode v, b < 256 := by
  intro b hb
  simp only [VarInt.encode] at hb
  split_ifs at hb <;>
    simp only [List.mem_cons, List.not_mem_nil, or_false] at hb <;> omega

/-- Reading a varint from the minimal encoding of any in-range value followed
by arbitrary extra bytes recovers exactly the value and the extra bytes. -/
theorem BufferReader.get_varint_encode (v : Nat) (rest : List Nat)
    (hv : v < 4611686018427387904) :
    BufferReader.get_varint (VarInt.encode v ++ rest) = some (v, rest) := by
  by_cases h1 : v < 64
  · have e1 : v % 256 = v := by omega
    have d0 : v / 64 % 4 = 0 := by omega
    simp [VarInt.encode, h1, BufferReader.get_varint, e1, d0]
  · by_cases h2 : v < 16384
    · have d1 : (16384 + v) / 256 % 256 / 64 % 4 = 1 := by omega
      simp [VarInt.encode, h1, h2, BufferReader.get_varint, d1]
      omega
    · by_cases h3 : v < 1073741824
      · have d2 : (2147483648 + v) / 16777216 % 256 / 64 % 4 = 2 := by omega
        simp [VarInt.encode, h1, h2, h3, BufferReader.get_varint, d2]
        omega
      · have d3 :
            (13835058055282163712 + v) / 72057594037927936 % 256 / 64 % 4 = 3 := by
          omega
        simp [VarInt.encode, h1, h2, h3, BufferReader.get_varint, d3]
        omega

/-- `put_bytes` succeeds whenever the writer has sufficient capacity, writing
the bytes at the cursor. -/
theorem BufferWriter.put_bytes_of_le (w : BufferWriter) (bytes : List Nat)
    (h : bytes.length ≤ w.capacity) :
    w.put_bytes bytes =
      .ok ⟨w.buffer.take w.offset ++ bytes ++
           w.buffer.drop (w.offset + bytes.length),
           w.offset + bytes.length⟩ := by
  simp [BufferWriter.put_bytes, Nat.not_lt.mpr h]

/-- Successful-write characterization: with sufficient capacity, `write`
produces the identifier's varint encoding followed by the payload and leaves
the tail of the destination untouched. -/
theorem Datagram.write_of_le (d : Datagram) (buffer : List Nat)
    (h : d.write_size ≤ buffer.length) :
    d.write buffer =
      .ok (VarInt.encode (QStreamId.into_varint d.qstream_id) ++
           (d.payload ++ buffer.drop d.write_size)) := by
  obtain ⟨id, p⟩ := d
  have hk : (VarInt.encode (QStreamId.into_varint id)).length
      = VarInt.size (QStreamId.into_varint id) := VarInt.encode_length _
  have hws : Datagram.write_size ⟨id, p⟩
      = (VarInt.encode (QStreamId.into_varint id)).length + p.length := by
    simp [Datagram.write_size, hk]
  rw [hws] at h ⊢
  simp only [Datagram.write]
  rw [if_neg (by omega)]
  rw [BufferWriter.put_varint,
      BufferWriter.put_bytes_of_le _ _
        (by simp only [BufferWriter.new, BufferWriter.capacity]; omega)]
  simp only [BufferWriter.new, List.take_zero, List.nil_append, Nat.zero_add]
  rw [BufferWriter.put_bytes_of_le _ _
        (by simp only [BufferWriter.capacity, List.length_append,
                       List.length_drop]
            omega)]
  rw [List.take_left, List.drop_append, List.drop_drop]
  simp

/-- Full characterization of `write` returning `ok`. -/
theorem Datagram.write_eq_ok_iff (d : Datagram) (buffer out : List Nat) :
    d.write buffer = .ok out ↔
      d.write_size ≤ buffer.length ∧
      out = VarInt.encode (QStreamId.into_varint d.qstream_id) ++
            (d.payload ++ buffer.drop d.write_size) := by
  constructor
  · intro h
    by_cases hc : buffer.length < d.write_size
    · rw [Datagram.write, if_pos hc] at h
      simp at h
    · rw [Datagram.write_of_le d buffer (by omega)] at h
      exact ⟨by omega, by simpa using h.symm⟩
  · rintro ⟨h1, rfl⟩
    exact Datagram.write_of_le d buffer h1

/-- `read` reports `TooShort` exactly when the varint reader reports
insufficient bytes. -/
theorem Datagram.read_of_get_varint_none (valid : Nat → Bool)
    (input : List Nat) (h : BufferReader.get_varint input = none) :
    Datagram.read valid input = .error .TooShort := by
  simp [Datagram.read, h]

/-- `read` reports `InvalidQStreamId` exactly when the varint decodes but the
identifier validation rejects it. -/
theorem Datagram.read_of_invalid (valid : Nat → Bool) (input r : List Nat)
    (v : Nat) (hg : BufferReader.get_varint input = some (v, r))
    (hv : valid v = false) :
    Datagram.read valid input = .error .InvalidQStreamId := by
  simp [Datagram.read, hg, QStreamId.try_from_varint, hv]

/-- `read` succeeds when the varint decodes and validation accepts it. -/
theorem Datagram.read_of_valid (valid : Nat → Bool) (input r : List Nat)
    (v : Nat) (hg : BufferReader.get_varint input = some (v, r))
    (hv : valid v = true) :
    Datagram.read valid input = .ok ⟨v, r⟩ := by
  simp [Datagram.read, hg, QStreamId.try_from_varint, hv]

/-- Full characterization of `read` returning `ok`. -/
theorem Datagram.read_eq_ok_iff (valid : Nat → Bool) (input : List Nat)
    (d : Datagram) :
    Datagram.read valid input = .ok d ↔
      BufferReader.get_varint input = some (d.qstream_id, d.payload) ∧
      valid d.qstream_id = true := by
  obtain ⟨dq, dp⟩ := d
  cases hg : BufferReader.get_varint input with
  | none => simp [Datagram.read, hg]
  | some pr =>
    obtain ⟨v, r⟩ := pr
    by_cases hv : valid v = true
    · rw [Datagram.read_of_valid valid input r v hg hv]
      simp only [Except.ok.injEq, Datagram.mk.injEq, Option.some.injEq,
                 Prod.mk.injEq]
      constructor
      · rintro ⟨rfl, rfl⟩
        exact ⟨⟨rfl, rfl⟩, hv⟩
      · rintro ⟨⟨rfl, rfl⟩, _⟩
        exact ⟨rfl, rfl⟩
    · rw [Datagram.read_of_invalid valid input r v hg (by simpa using hv)]
      simp only [reduceCtorEq, Option.some.injEq, Prod.mk.injEq, false_iff,
                 not_and]
      rintro ⟨rfl, rfl⟩ hc
      exact hv hc

/-- Every successful varint read consumes at least one byte and at most the
whole buffer, returns exactly the unconsumed remainder, and — on genuine
byte input — never consumes fewer bytes than the minimal encoding of the
value it returns. -/
theorem BufferReader.get_varint_spec (buf : List Nat) (v : Nat) (r : List Nat)
    (h : BufferReader.get_varint buf = some (v, r)) :
    ∃ k, 1 ≤ k ∧ k ≤ buf.length ∧ r = List.drop k buf ∧
      ((∀ b ∈ buf, b < 256) → VarInt.size v ≤ k) := by
  match buf with
  | [] => simp [BufferReader.get_varint] at h
  | b0 :: rest =>
    simp only [BufferReader.get_varint] at h
    split_ifs at h with h0 h1 h2
    · simp only [Option.some.injEq, Prod.mk.injEq] at h
      obtain ⟨rfl, rfl⟩ := h
      have hlt : b0 % 64 < 64 := by omega
      exact ⟨1, by omega, by simp only [List.length_cons]; omega, rfl,
             fun _ => by simp [VarInt.size, hlt]⟩
    · rcases rest with _ | ⟨b1, r1⟩
      · simp at h
      · simp only [Option.some.injEq, Prod.mk.injEq] at h
        obtain ⟨rfl, rfl⟩ := h
        refine ⟨2, by omega, by simp only [List.length_cons]; omega, rfl,
                fun hb => ?_⟩
        have hb1 : b1 < 256 := hb b1 (by simp)
        have hv2 : b0 % 64 * 256 + b1 < 16384 := by omega
        simp only [VarInt.size]
        split_ifs <;> omega
    · rcases rest with _ | ⟨b1, _ | ⟨b2, _ | ⟨b3, r1⟩⟩⟩
      · simp at h
      · simp at h
      · simp at h
      · simp only [Option.some.injEq, Prod.mk.injEq] at h
        obtain ⟨rfl, rfl⟩ := h
        refine ⟨4, by omega, by simp only [List.length_cons]; omega, rfl,
                fun hb => ?_⟩
        have hb1 : b1 < 256 := hb b1 (by simp)
        have hb2 : b2 < 256 := hb b2 (by simp)
        have hb3 : b3 < 256 := hb b3 (by simp)
        have hv4 : b0 % 64 * 16777216 + b1 * 65536 + b2 * 256 + b3
            < 1073741824 := by omega
        simp only [VarInt.size]
        split_ifs <;> omega
    · rcases rest with
        _ | ⟨b1, _ | ⟨b2, _ | ⟨b3, _ | ⟨b4, _ | ⟨b5, _ | ⟨b6, _ | ⟨b7, r1⟩⟩⟩⟩⟩⟩⟩
      · simp at h
      · simp at h
      · simp at h
      · simp at h
      · simp at h
      · simp at h
      · simp at h
      · simp only [Option.some.injEq, Prod.mk.injEq] at h
        obtain ⟨rfl, rfl⟩ := h
        exact ⟨8, by omega, by simp only [List.length_cons]; omega, rfl,
               fun _ => VarInt.size_le_eight _⟩

/-- When the input is shorter than the total length its first byte declares,
the varint reader fails. -/
theorem BufferReader.get_varint_short (b0 : Nat) (rest : List Nat)
    (h : rest.length + 1 < 2 ^ (b0 / 64 % 4)) :
    BufferReader.get_varint (b0 :: rest) = none := by
  have hcases : b0 / 64 % 4 = 0 ∨ b0 / 64 % 4 = 1 ∨ b0 / 64 % 4 = 2 ∨
      b0 / 64 % 4 = 3 := by omega
  rcases hcases with h0 | h0 | h0 | h0
  · rw [h0] at h
    simp at h
  · rw [h0] at h
    have : rest = [] := by
      cases rest with
      | nil => rfl
      | cons a l => simp only [List.length_cons] at h; omega
    subst this
    simp [BufferReader.get_varint, h0]
  · rw [h0] at h
    rcases rest with _ | ⟨b1, _ | ⟨b2, r⟩⟩
    · simp [BufferReader.get_varint, h0]
    · simp [BufferReader.get_varint, h0]
    · have : r = [] := by
        simp only [List.length_cons] at h
        cases r with
        | nil => rfl
        | cons a l => simp only [List.length_cons] at h; omega
      subst this
      simp [BufferReader.get_varint, h0]
  · rw [h0] at h
    rcases rest with
      _ | ⟨b1, _ | ⟨b2, _ | ⟨b3, _ | ⟨b4, _ | ⟨b5, _ | ⟨b6, r⟩⟩⟩⟩⟩⟩
    · simp [BufferReader.get_varint, h0]
    · simp [BufferReader.get_varint, h0]
    · simp [BufferReader.get_varint, h0]
    · simp [BufferReader.get_varint, h0]
    · simp [BufferReader.get_varint, h0]
    · simp [BufferReader.get_varint, h0]
    · have : r = [] := by
        simp only [List.length_cons] at h
        cases r with
        | nil => rfl
        | cons a l => simp only [List.length_cons] at h; omega
      subst this
      simp [BufferReader.get_varint, h0]

/-- The first byte of a minimal varint encoding declares exactly the length
of the whole encoding. -/
theorem VarInt.encode_head (v b0 : Nat) (tl : List Nat)
    (hv : v < 4611686018427387904) (h : VarInt.encode v = b0 :: tl) :
    2 ^ (b0 / 64 % 4) = tl.length + 1 := by
  by_cases h1 : v < 64
  · simp only [VarInt.encode, if_pos h1, List.cons.injEq] at h
    obtain ⟨rfl, rfl⟩ := h
    have hd : v % 256 / 64 % 4 = 0 := by omega
    rw [hd]
    rfl
  · by_cases h2 : v < 16384
    · simp only [VarInt.encode, if_neg h1, if_pos h2, List.cons.injEq] at h
      obtain ⟨rfl, rfl⟩ := h
      have hd : (16384 + v) / 256 % 256 / 64 % 4 = 1 := by omega
      rw [hd]
      rfl
    · by_cases h3 : v < 1073741824
      · simp only [VarInt.encode, if_neg h1, if_neg h2, if_pos h3,
                   List.cons.injEq] at h
        obtain ⟨rfl, rfl⟩ := h
        have hd : (2147483648 + v) / 16777216 % 256 / 64 % 4 = 2 := by omega
        rw [hd]
        rfl
      · simp only [VarInt.encode, if_neg h1, if_neg h2, if_neg h3,
                   List.cons.injEq] at h
        obtain ⟨rfl, rfl⟩ := h
        have hd :
            (13835058055282163712 + v) / 72057594037927936 % 256 / 64 % 4
              = 3 := by omega
        rw [hd]
        rfl

/-- Any strict prefix of a minimal varint encoding makes the varint reader
fail. -/
theorem BufferReader.get_varint_take_encode (v k : Nat)
    (hv : v < 4611686018427387904) (hk : k < (VarInt.encode v).length) :
    BufferReader.get_varint ((VarInt.encode v).take k) = none := by
  cases k with
  | zero => simp [BufferReader.get_varint]
  | succ j =>
    cases he : VarInt.encode v with
    | nil => rw [he] at hk; simp at hk
    | cons b0 tl =>
      rw [he] at hk
      simp only [List.length_cons] at hk
      rw [List.take_succ_cons]
      apply BufferReader.get_varint_short
      rw [VarInt.encode_head v b0 tl hv he]
      simp only [List.length_take]
      omega

/-! ### Claim theorems -/

/-- C1: Round-trip — for every stream identifier accepted by the validation
rule (and in varint range, the type-level invariant of `QStreamId`) and
every byte sequence `p` including the empty one, writing
`Datagram.new id p` into a buffer of length `write_size` succeeds, and
reading the written buffer back succeeds with a datagram whose
`qstream_id` is `id` and whose payload is `p` byte-for-byte. -/
theorem C1_round_trip (valid : Nat → Bool) (id : Nat) (p buffer : List Nat)
    (hid : id < 4611686018427387904) (hv : valid id = true)
    (hbuf : buffer.length = (Datagram.new id p).write_size) :
    ∃ out, (Datagram.new id p).write buffer = .ok out ∧
      Datagram.read valid out = .ok (Datagram.new id p) := by
  have hout : (Datagram.new id p).write buffer = .ok (VarInt.encode id ++ p) := by
    have hw := Datagram.write_of_le (Datagram.new id p) buffer (le_of_eq hbuf.symm)
    rw [hw, ← hbuf, List.drop_length, List.append_nil]
    rfl
  exact ⟨VarInt.encode id ++ p, hout,
    Datagram.read_of_valid valid _ p id
      (BufferReader.get_varint_encode id p hid) hv⟩

/-- C2: Size correctness — `write_size` is exactly the minimal varint
encoding length of the identifier plus the payload length: it equals the
length of the encoding `write` actually emits, no shorter byte sequence
decodes to the same identifier (minimality, stated against any successful
varint read of the identifier from genuine bytes), and a successful write
produces exactly `write_size` bytes at the front of the destination. -/
theorem C2_size_correctness (d : Datagram) (buffer out bs r : List Nat)
    (hbytes : ∀ b ∈ bs, b < 256)
    (hg : BufferReader.get_varint bs =
            some (QStreamId.into_varint d.qstream_id, r))
    (hw : d.write buffer = .ok out) :
    d.write_size =
      (VarInt.encode (QStreamId.into_varint d.qstream_id)).length +
        d.payload.length ∧
    (VarInt.encode (QStreamId.into_varint d.qstream_id)).length ≤
      bs.length - r.length ∧
    out = (VarInt.encode (QStreamId.into_varint d.qstream_id) ++ d.payload)
          ++ buffer.drop d.write_size ∧
    (VarInt.encode (QStreamId.into_varint d.qstream_id) ++ d.payload).length
      = d.write_size := by
  obtain ⟨hle, hout⟩ := (Datagram.write_eq_ok_iff d buffer out).mp hw
  obtain ⟨k, hk1, hk2, hkr, hkmin⟩ := BufferReader.get_varint_spec bs _ r hg
  have hlen := VarInt.encode_length (QStreamId.into_varint d.qstream_id)
  refine ⟨by simp [Datagram.write_size, hlen], ?_, ?_, ?_⟩
  · have hr : r.length = bs.length - k := by rw [hkr]; simp [List.length_drop]
    have hmin := hkmin hbytes
    omega
  · rw [hout, List.append_assoc]
  · simp [List.length_append, hlen, Datagram.write_size]

/-- C3: Encode atomicity on capacity failure — whenever the destination is
strictly shorter than `write_size`, `write` fails with the capacity error
and the destination is byte-for-byte unchanged. -/
theorem C3_capacity_error (d : Datagram) (buffer : List Nat)
    (h : buffer.length < d.write_size) :
    d.write buffer = .err buffer := by
  simp only [Datagram.write]
  rw [if_pos h]

/-- C4: Encode cannot fail under the capacity precondition — with
`write_size` bytes available the write returns `ok`, so neither of the
two `expect` (panic) branches after the capacity check is reachable. -/
theorem C4_write_total (d : Datagram) (buffer : List Nat)
    (h : d.write_size ≤ buffer.length) :
    ∃ out, d.write buffer = .ok out ∧
      d.write buffer ≠ Datagram.WriteResult.panicked := by
  refine ⟨_, Datagram.write_of_le d buffer h, ?_⟩
  rw [Datagram.write_of_le d buffer h]
  simp

/-- C5: Truncation failure — every strict prefix of a valid encoded stream
identifier (including the empty input) is rejected by `read` with
`TooShort`, and so is any input on which the varint reader reports
insufficient bytes. -/
theorem C5_truncation (valid : Nat → Bool) (v k : Nat) (input : List Nat)
    (hv : v < 4611686018427387904) (hk : k < (VarInt.encode v).length)
    (hnone : BufferReader.get_varint input = none) :
    Datagram.read valid ((VarInt.encode v).take k) = .error .TooShort ∧
    Datagram.read valid input = .error .TooShort :=
  ⟨Datagram.read_of_get_varint_none valid _
      (BufferReader.get_varint_take_encode v k hv hk),
   Datagram.read_of_get_varint_none valid input hnone⟩

/-- C6: Invalid identifier failure — when the leading varint decodes but the
validation predicate rejects it, `read` fails with `InvalidQStreamId`
regardless of the bytes that follow the identifier; and on any input at
all, `read` either fails with one of the two error kinds or succeeds —
there is no other outcome. -/
theorem C6_invalid_identifier (valid : Nat → Bool)
    (input input2 rest : List Nat) (v : Nat)
    (hg : BufferReader.get_varint input = some (v, rest))
    (hv : valid v = false) :
    Datagram.read valid input = .error .InvalidQStreamId ∧
    (Datagram.read valid input2 = .error .TooShort ∨
     Datagram.read valid input2 = .error .InvalidQStreamId ∨
     ∃ d, Datagram.read valid input2 = .ok d) := by
  refine ⟨Datagram.read_of_invalid valid input rest v hg hv, ?_⟩
  cases hg2 : BufferReader.get_varint input2 with
  | none => exact Or.inl (Datagram.read_of_get_varint_none valid input2 hg2)
  | some pr =>
    obtain ⟨v2, r2⟩ := pr
    by_cases hv2 : valid v2 = true
    · exact Or.inr (Or.inr ⟨⟨v2, r2⟩,
        Datagram.read_of_valid valid input2 r2 v2 hg2 hv2⟩)
    · exact Or.inr (Or.inl
        (Datagram.read_of_invalid valid input2 r2 v2 hg2 (by simpa using hv2)))

/-- C7: Empty payload is valid — an input that is exactly one complete valid
encoded identifier with no trailing bytes decodes successfully to a
datagram with the empty payload; in particular the minimal encoding of any
valid in-range identifier does. -/
theorem C7_empty_payload (valid : Nat → Bool) (input : List Nat) (v : Nat)
    (hg : BufferReader.get_varint input = some (v, []))
    (hv : valid v = true) (hrange : v < 4611686018427387904) :
    Datagram.read valid input = .ok (Datagram.new v []) ∧
    Datagram.read valid (VarInt.encode v) = .ok (Datagram.new v []) :=
  ⟨Datagram.read_of_valid valid input [] v hg hv,
   Datagram.read_of_valid valid _ [] v
     (by simpa using BufferReader.get_varint_encode v [] hrange) hv⟩

/-- C8: Decode payload-length invariant — whenever `read` succeeds, the
payload is exactly the input's remainder after the identifier's encoded
length: the reader consumed at least one byte, at most the whole input,
the payload is the suffix dropped at the consumed length, and its length
is the input length minus the consumed length. -/
theorem C8_payload_invariant (valid : Nat → Bool) (input : List Nat)
    (d : Datagram) (h : Datagram.read valid input = .ok d) :
    ∃ idLen,
      BufferReader.get_varint input = some (d.qstream_id, d.payload) ∧
      1 ≤ idLen ∧ idLen ≤ input.length ∧
      d.payload = input.drop idLen ∧
      d.payload.length = input.length - idLen := by
  obtain ⟨hg, hv⟩ := (Datagram.read_eq_ok_iff valid input d).mp h
  obtain ⟨k, hk1, hk2, hkr, _⟩ := BufferReader.get_varint_spec input _ _ hg
  exact ⟨k, hg, hk1, hk2, hkr, by rw [hkr]; simp [List.length_drop]⟩

/-- C9: Frame condition of encode — a successful `write` leaves the
destination's length unchanged and every byte at an index at or beyond
`write_size` keeps its prior value. -/
theorem C9_frame_condition (d : Datagram) (buffer out : List Nat)
    (h : d.write buffer = .ok out) :
    out.length = buffer.length ∧
    out.drop d.write_size = buffer.drop d.write_size := by
  obtain ⟨hle, hout⟩ := (Datagram.write_eq_ok_iff d buffer out).mp h
  have hws : d.write_size =
      (VarInt.encode (QStreamId.into_varint d.qstream_id)).length +
        d.payload.length := by
    simp [Datagram.write_size, VarInt.encode_length]
  constructor
  · rw [hout]
    simp only [List.length_append, List.length_drop]
    omega
  · rw [hout, ← List.append_assoc]
    have h2 : (VarInt.encode (QStreamId.into_varint d.qstream_id) ++
        d.payload).length = d.write_size := by
      simp [List.length_append, VarInt.encode_length, Datagram.write_size]
    rw [List.drop_left' h2]

/-- C10: Output of encode is independent of the destination's prior
contents — two successful writes of the same datagram into two buffers of
the same sufficient length produce identical first `write_size` bytes. -/
theorem C10_output_independent (d : Datagram) (b1 b2 o1 o2 : List Nat)
    (_hlen : b1.length = b2.length)
    (h1 : d.write b1 = .ok o1) (h2 : d.write b2 = .ok o2) :
    o1.take d.write_size = o2.take d.write_size := by
  obtain ⟨hle1, ho1⟩ := (Datagram.write_eq_ok_iff d b1 o1).mp h1
  obtain ⟨hle2, ho2⟩ := (Datagram.write_eq_ok_iff d b2 o2).mp h2
  have hpre : (VarInt.encode (QStreamId.into_varint d.qstream_id) ++
      d.payload).length = d.write_size := by
    simp [List.length_append, VarInt.encode_length, Datagram.write_size]
  rw [ho1, ho2, ← List.append_assoc, ← List.append_assoc,
      List.take_left' hpre, List.take_left' hpre]

/-! ### Witnesses

Each witness instantiates its claim theorem at concrete inputs, using the
concrete validation rule `fun n => n % 4 == 0` (a range/parity-style rule of
the kind the spec describes). -/

/-- Witness for C1 at identifier 4, payload `[0xAA, 0xBB]`, a 3-byte
buffer. -/
theorem C1_round_trip_witness :
    ∃ out, (Datagram.new 4 [170, 187]).write [9, 9, 9] = .ok out ∧
      Datagram.read (fun n => n % 4 == 0) out = .ok (Datagram.new 4 [170, 187]) :=
  C1_round_trip (fun n => n % 4 == 0) 4 [170, 187] [9, 9, 9]
    (by decide) (by rfl) (by rfl)

/-- Witness for C2 at identifier 4, payload `[0xAA, 0xBB]`: `write_size` is
3, the alternative decoding `[4, 5]` of the identifier consumes at least
1 byte, and writing into `[9, 9, 9]` produces `[4, 170, 187]`. -/
theorem C2_size_correctness_witness :
    (Datagram.new 4 [170, 187]).write_size =
      (VarInt.encode (QStreamId.into_varint
        (Datagram.new 4 [170, 187]).qstream_id)).length +
        (Datagram.new 4 [170, 187]).payload.length ∧
    (VarInt.encode (QStreamId.into_varint
        (Datagram.new 4 [170, 187]).qstream_id)).length ≤
      ([4, 5] : List Nat).length - ([5] : List Nat).length ∧
    [4, 170, 187] =
      (VarInt.encode (QStreamId.into_varint
          (Datagram.new 4 [170, 187]).qstream_id) ++
        (Datagram.new 4 [170, 187]).payload) ++
        List.drop (Datagram.new 4 [170, 187]).write_size [9, 9, 9] ∧
    (VarInt.encode (QStreamId.into_varint
        (Datagram.new 4 [170, 187]).qstream_id) ++
      (Datagram.new 4 [170, 187]).payload).length =
      (Datagram.new 4 [170, 187]).write_size :=
  C2_size_correctness (Datagram.new 4 [170, 187]) [9, 9, 9] [4, 170, 187]
    [4, 5] [5] (by decide) (by rfl) (by rfl)

/-- Witness for C3: a buffer one byte shorter than `write_size`. -/
theorem C3_capacity_error_witness :
    (Datagram.new 4 [170, 187]).write [0, 0] = .err [0, 0] :=
  C3_capacity_error (Datagram.new 4 [170, 187]) [0, 0] (by decide)

/-- Witness for C4: a buffer one byte longer than `write_size`. -/
theorem C4_write_total_witness :
    ∃ out, (Datagram.new 4 [170, 187]).write [0, 0, 0, 0] = .ok out ∧
      (Datagram.new 4 [170, 187]).write [0, 0, 0, 0] ≠
        Datagram.WriteResult.panicked :=
  C4_write_total (Datagram.new 4 [170, 187]) [0, 0, 0, 0] (by decide)

/-- Witness for C5: the 1-byte strict prefix of the 2-byte encoding of 300,
and the empty input. -/
theorem C5_truncation_witness :
    Datagram.read (fun n => n % 4 == 0) ((VarInt.encode 300).take 1) =
      .error .TooShort ∧
    Datagram.read (fun n => n % 4 == 0) [] = .error .TooShort :=
  C5_truncation (fun n => n % 4 == 0) 300 1 [] (by decide) (by decide) (by rfl)

/-- Witness for C6: identifier 5 is rejected by the parity rule. -/
theorem C6_invalid_identifier_witness :
    Datagram.read (fun n => n % 4 == 0) [5, 1] = .error .InvalidQStreamId ∧
    (Datagram.read (fun n => n % 4 == 0) [8] = .error .TooShort ∨
     Datagram.read (fun n => n % 4 == 0) [8] = .error .InvalidQStreamId ∨
     ∃ d, Datagram.read (fun n => n % 4 == 0) [8] = .ok d) :=
  C6_invalid_identifier (fun n => n % 4 == 0) [5, 1] [8] [1] 5 (by rfl) (by rfl)

/-- Witness for C7: the single byte `[8]` is one complete valid identifier
encoding with no trailing bytes. -/
theorem C7_empty_payload_witness :
    Datagram.read (fun n => n % 4 == 0) [8] = .ok (Datagram.new 8 []) ∧
    Datagram.read (fun n => n % 4 == 0) (VarInt.encode 8) =
      .ok (Datagram.new 8 []) :=
  C7_empty_payload (fun n => n % 4 == 0) [8] 8 (by rfl) (by rfl) (by decide)

/-- Witness for C8 on the successful decode of `[4, 170, 187]`. -/
theorem C8_payload_invariant_witness :
    ∃ idLen,
      BufferReader.get_varint [4, 170, 187] =
        some ((Datagram.new 4 [170, 187]).qstream_id,
              (Datagram.new 4 [170, 187]).payload) ∧
      1 ≤ idLen ∧ idLen ≤ ([4, 170, 187] : List Nat).length ∧
      (Datagram.new 4 [170, 187]).payload = List.drop idLen [4, 170, 187] ∧
      (Datagram.new 4 [170, 187]).payload.length =
        ([4, 170, 187] : List Nat).length - idLen :=
  C8_payload_invariant (fun n => n % 4 == 0) [4, 170, 187]
    (Datagram.new 4 [170, 187]) (by rfl)

/-- Witness for C9 on a 4-byte destination whose last byte survives. -/
theorem C9_frame_condition_witness :
    ([4, 170, 187, 5] : List Nat).length = ([7, 7, 7, 5] : List Nat).length ∧
    List.drop (Datagram.new 4 [170, 187]).write_size [4, 170, 187, 5] =
      List.drop (Datagram.new 4 [170, 187]).write_size [7, 7, 7, 5] :=
  C9_frame_condition (Datagram.new 4 [170, 187]) [7, 7, 7, 5] [4, 170, 187, 5]
    (by rfl)

/-- Witness for C10 on two equal-length destinations with different prior
contents. -/
theorem C10_output_independent_witness :
    List.take (Datagram.new 4 [170, 187]).write_size [4, 170, 187] =
      List.take (Datagram.new 4 [170, 187]).write_size [4, 170, 187] :=
  C10_output_independent (Datagram.new 4 [170, 187]) [1, 1, 1] [2, 2, 2]
    [4, 170, 187] [4, 170, 187] (by rfl) (by rfl) (by rfl)

end Wtransport
